import Mathlib

/-!
Verification of the linear-operator framework of `sf_deconvolve`
(`old/psf/operators.py`) and of the boolean toggle flags of
`psf_scripts/deconvolution_args.py`.

Arrays are embedded as exact-rational images indexed by a cyclic grid
`ZMod m × ZMod n` (a 2D array of logical shape `(m, n)`); a numpy 3D
stack ("cube") is a list of such planes.  Machine floats are idealised
as `ℚ`, so "within floating tolerance" statements become exact
equalities.  Fallible numpy operations (shape mismatches) return
`Option`; a constructor that can `raise` returns `Except String`.

The convolution primitives (`psf_convolve`, `pca_convolve`,
`pca_convolve_stack`, from the repository file `convolve.py`, which is
not part of the sources given) and the `PowerMethod` collaborator
(`algorithms.py`, also absent) are modelled from the specification, as
their doc comments state.  Everything else is translated directly from
`operators.py` / `deconvolution_args.py`.
-/

namespace SFD

/-- Pixel grid of a 2D array of logical shape `(m, n)`: a cyclic torus,
the standard idealisation of discrete convolution indexing. -/
abbrev Pix (m n : ℕ) := ZMod m × ZMod n

/-- A 2D image ("map"): exact-rational values on the pixel grid. -/
abbrev Img (m n : ℕ) := Pix m n → ℚ

variable {m n : ℕ} [NeZero m] [NeZero n]

/-- Modelled from the spec: discrete 2D convolution of data `x` with
kernel `k` (`convolve(data, kernel)` in the absent `convolve.py`). -/
def convolve (x k : Img m n) : Img m n := fun i => ∑ j : Pix m n, k j * x (i - j)

/-- Modelled from the spec: the 180°-reflected (rotated) kernel, "the
standard adjoint of 2D convolution" (spec §4.3). -/
def rotate (k : Img m n) : Img m n := fun j => k (-j)

/-- Inner product of two images, `np.sum(a * b)`. -/
def iprod (a b : Img m n) : ℚ := ∑ i : Pix m n, a i * b i

/-- A numpy array as the operator code sees it: either a single 2D
image (`map`) or a 3D stack of planes (`cube`). -/
inductive NDA (m n : ℕ) where
  | two (img : Img m n)
  | three (planes : List (Img m n))

/-- Shape of an array, as `numpy.ndarray.shape` reports it. -/
def ndshape : NDA m n → List ℕ
  | .two _ => [m, n]
  | .three xs => [xs.length, m, n]

/-- Elementwise subtraction (`MX(x) - y`); `none` models numpy's
shape-mismatch error. -/
def ndsub : NDA m n → NDA m n → Option (NDA m n)
  | .two a, .two b => some (.two (a - b))
  | .three as, .three bs =>
      if as.length = bs.length then some (.three (List.zipWith (fun a b => a - b) as bs))
      else none
  | _, _ => none

/-- `np.zeros(x.shape)`: an all-zero array of the same shape as `x`. -/
def ndzeros : NDA m n → NDA m n
  | .two _ => .two 0
  | .three xs => .three (xs.map fun _ => 0)

/-- Every entry of the array is zero. -/
def ndAllZero : NDA m n → Prop
  | .two a => a = 0
  | .three xs => ∀ p ∈ xs, p = 0

/-- Inner product of two arrays, `np.sum(a * b)`; heterogeneous-rank
pairs get the junk value `0` (numpy would refuse them). -/
def iprodN : NDA m n → NDA m n → ℚ
  | .two a, .two b => iprod a b
  | .three as, .three bs => (List.zipWith iprod as bs).sum
  | _, _ => 0

/-- Extract a 2D image, `none` on rank mismatch. -/
def asMap : NDA m n → Option (Img m n)
  | .two a => some a
  | _ => none

/-- Extract a 3D stack, `none` on rank mismatch. -/
def asCube : NDA m n → Option (List (Img m n))
  | .three a => some a
  | _ => none

/-- Kernel with the optional adjoint rotation applied. -/
def krot (psf_rot : Bool) (k : Img m n) : Img m n := if psf_rot then rotate k else k

/-- Modelled from the spec: `psf_convolve(data, psf, psf_rot, psf_type,
data_format)` from the absent `convolve.py`.  `psf_type = "fixed"`
broadcasts one kernel (a single 2D convolution for `map`, a per-plane
loop with the same kernel for `cube`); `psf_type = "obj_var"` uses one
kernel per plane, index-aligned with the data; `psf_rot` selects the
180°-rotated (adjoint) kernel.  Any rank/shape mismatch is `none`. -/
def psf_convolve (x psf : NDA m n) (psf_rot : Bool) (psf_type data_format : String) :
    Option (NDA m n) :=
  if psf_type = "fixed" then
    (asMap psf).bind fun k =>
      if data_format = "map" then
        (asMap x).map fun xi => NDA.two (convolve xi (krot psf_rot k))
      else if data_format = "cube" then
        (asCube x).map fun xs => NDA.three (xs.map fun xi => convolve xi (krot psf_rot k))
      else none
  else if psf_type = "obj_var" then
    (asCube psf).bind fun ks =>
      if data_format = "cube" then
        (asCube x).bind fun xs =>
          if xs.length = ks.length then
            some (NDA.three (List.zipWith (fun xi k => convolve xi (krot psf_rot k)) xs ks))
          else none
      else none
  else none

/-- Modelled from the spec: single-plane pixel-variant (PCA) convolution
from the absent `convolve.py`.  The locally varying kernel is the
coefficient-weighted sum of the basis components (spec §4.4): forward
multiplies the data by each coefficient map and convolves with the
component; the `rot` (adjoint) variant convolves with the rotated
component and then multiplies by the coefficient map, the exact
transpose of the forward rule. -/
def pca2 (x : Img m n) (pcs cs : List (Img m n)) (rot : Bool) : Img m n :=
  if rot then (List.zipWith (fun pc c => c * convolve x (rotate pc)) pcs cs).sum
  else (List.zipWith (fun pc c => convolve (c * x) pc) pcs cs).sum

/-- Modelled from the spec: `pca_convolve(data, psf_pcs, psf_coef,
pcs_rot)` for `map`-format data; each PCA coefficient entry must be a
2D map. -/
def pca_convolve (x : NDA m n) (pcs : List (Img m n)) (coef : List (NDA m n))
    (pcs_rot : Bool) : Option (NDA m n) :=
  (asMap x).bind fun xi =>
    (coef.mapM asMap).map fun cs => NDA.two (pca2 xi pcs cs pcs_rot)

/-- Coefficient maps of plane `j`: the `j`-th plane of every component's
coefficient cube. -/
def colAt (j : ℕ) (ckss : List (List (Img m n))) : List (Img m n) :=
  ckss.map fun ck => ck.getD j 0

/-- Per-plane PCA convolution of the planes of a cube, plane `j` using
the `j`-th coefficient plane of every component. -/
def pcaStackPlanes (pcs : List (Img m n)) (ckss : List (List (Img m n))) (rot : Bool) :
    List (Img m n) → ℕ → List (Img m n)
  | [], _ => []
  | x :: xs, j => pca2 x pcs (colAt j ckss) rot :: pcaStackPlanes pcs ckss rot xs (j + 1)

/-- Modelled from the spec: `pca_convolve_stack(data, psf_pcs, psf_coef,
pcs_rot)` for `cube`-format data — "applies the same reconstruction
independently per plane" (spec §4.4), with per-plane coefficient
planes; each component's coefficient entry must be a cube aligned with
the data's planes. -/
def pca_convolve_stack (x : NDA m n) (pcs : List (Img m n)) (coef : List (NDA m n))
    (pcs_rot : Bool) : Option (NDA m n) :=
  (asCube x).bind fun xs =>
    (coef.mapM asCube).bind fun ckss =>
      if ckss.all fun ck => ck.length = xs.length then
        some (NDA.three (pcaStackPlanes pcs ckss pcs_rot xs 0))
      else none

/-- Modelled from the spec: the `PowerMethod` collaborator of
`algorithms.py` (absent from the sources).  It is constructed from the
operator's composed map, an input shape and an `auto_run` flag; with
`auto_run = false` the spectral-norm estimate is not computed at
construction (`norm = none`), only on first explicit request
(spec §4.5, §6). -/
structure PowerMethod (m n : ℕ) where
  operator : NDA m n → Option (NDA m n)
  data_shape : List ℕ
  auto_run : Bool
  norm : Option ℚ

/-- Iterated application of a fallible map. -/
def iterApply (f : NDA m n → Option (NDA m n)) : ℕ → NDA m n → Option (NDA m n)
  | 0, x => some x
  | k + 1, x => (f x).bind (iterApply f k)

/-- All-ones starting array of a given shape (spec §4.5: a normalised
starting vector; ones is the deterministic idealisation). -/
def ndOnes (shape : List ℕ) : NDA m n :=
  match shape with
  | [p, _, _] => .three (List.replicate p 1)
  | _ => .two 1

/-- Modelled from the spec: a Rayleigh-quotient spectral-norm estimate
after a fixed number of applications of the composed map (spec §4.5). -/
def powerIterNorm (f : NDA m n → Option (NDA m n)) (shape : List ℕ) : Option ℚ :=
  (iterApply f 10 (ndOnes shape)).bind fun xk =>
    (f xk).map fun fxk =>
      if iprodN xk xk = 0 then 0 else iprodN xk fxk / iprodN xk xk

/-- Modelled from the spec: `PowerMethod.__init__(operator, data_shape,
auto_run)`; computes the norm eagerly only when `auto_run` is true. -/
def PowerMethod.init (f : NDA m n → Option (NDA m n)) (shape : List ℕ)
    (auto_run : Bool) : PowerMethod m n :=
  { operator := f, data_shape := shape, auto_run := auto_run,
    norm := if auto_run then powerIterNorm f shape else none }

/-- GradBasic.MtMX: `self.MtX(self.MX(x))` — the composed map, defined
once for all operator variants. -/
def GradBasic.MtMX (MX MtX : NDA m n → Option (NDA m n)) (x : NDA m n) :
    Option (NDA m n) :=
  (MX x).bind MtX

/-- GradBasic.get_grad's computed value: `self.MtX(self.MX(x) - self.y)`. -/
def GradBasic.grad_val (MX MtX : NDA m n → Option (NDA m n)) (y x : NDA m n) :
    Option (NDA m n) :=
  (MX x).bind fun fx => (ndsub fx y).bind MtX

/-- GradZero as an operator state: any bound data and forward/adjoint
maps, plus the stored gradient. -/
structure GradZeroOp (m n : ℕ) where
  y : NDA m n
  MX : NDA m n → Option (NDA m n)
  MtX : NDA m n → Option (NDA m n)
  grad : Option (NDA m n)

/-- GradZero.get_grad: `self.grad = np.zeros(x.shape)`. -/
def GradZeroOp.get_grad (op : GradZeroOp m n) (x : NDA m n) : GradZeroOp m n :=
  { op with grad := some (ndzeros x) }

/-- StandardPSF instance state: bound data `y`, PSF, validated tags,
the transient gradient and the registered power-iteration collaborator. -/
structure StandardPSF (m n : ℕ) where
  y : NDA m n
  psf : NDA m n
  psf_type : String
  data_format : String
  grad : Option (NDA m n)
  pm : PowerMethod m n

/-- StandardPSF.MX: `psf_convolve(x, self.psf, psf_rot=False,
psf_type=self.psf_type, data_format=self.data_format)`. -/
def StandardPSF.MX (op : StandardPSF m n) (x : NDA m n) : Option (NDA m n) :=
  psf_convolve x op.psf false op.psf_type op.data_format

/-- StandardPSF.MtX: the same call with `psf_rot=True`. -/
def StandardPSF.MtX (op : StandardPSF m n) (x : NDA m n) : Option (NDA m n) :=
  psf_convolve x op.psf true op.psf_type op.data_format

/-- MtMX inherited from GradBasic. -/
def StandardPSF.MtMX (op : StandardPSF m n) : NDA m n → Option (NDA m n) :=
  GradBasic.MtMX op.MX op.MtX

/-- get_grad inherited from GradBasic: stores `MtX(MX(x) - y)` in
`self.grad`; `none` models a propagated shape error. -/
def StandardPSF.get_grad (op : StandardPSF m n) (x : NDA m n) :
    Option (StandardPSF m n) :=
  (GradBasic.grad_val op.MX op.MtX op.y x).map fun g => { op with grad := some g }

/-- StandardPSF.__init__: binds data and PSF, validates `psf_type` then
`data_format` (raising ValueError on failure, before any registration),
then registers the composed map with PowerMethod over `self.y.shape`
with `auto_run=False`. -/
def standardPSF_init (data psf : NDA m n) (psf_type data_format : String) :
    Except String (StandardPSF m n) :=
  if psf_type = "fixed" ∨ psf_type = "obj_var" then
    if data_format = "map" ∨ data_format = "cube" then
      .ok { y := data, psf := psf, psf_type := psf_type, data_format := data_format,
            grad := none,
            pm := PowerMethod.init
              (GradBasic.MtMX (fun x => psf_convolve x psf false psf_type data_format)
                (fun x => psf_convolve x psf true psf_type data_format))
              (ndshape data) false }
    else .error "Invalid data type. Options are map or cube."
  else .error "Invalid PSF type. Options are fixed or obj_var"

/-- StandardPSFnoGrad(GradZero, StandardPSF): under Python's method
resolution order its instances carry exactly StandardPSF's attributes,
so the state type is shared. -/
abbrev StandardPSFnoGrad (m n : ℕ) := StandardPSF m n

/-- MRO resolves MX to StandardPSF.MX (GradZero defines none). -/
def StandardPSFnoGrad.MX : StandardPSFnoGrad m n → NDA m n → Option (NDA m n) :=
  StandardPSF.MX

/-- MRO resolves MtX to StandardPSF.MtX. -/
def StandardPSFnoGrad.MtX : StandardPSFnoGrad m n → NDA m n → Option (NDA m n) :=
  StandardPSF.MtX

/-- MRO resolves MtMX to GradBasic.MtMX over the resolved MX/MtX. -/
def StandardPSFnoGrad.MtMX (op : StandardPSFnoGrad m n) : NDA m n → Option (NDA m n) :=
  GradBasic.MtMX (StandardPSFnoGrad.MX op) (StandardPSFnoGrad.MtX op)

/-- MRO resolves get_grad to GradZero.get_grad: `self.grad =
np.zeros(x.shape)`, never failing and ignoring data and maps. -/
def StandardPSFnoGrad.get_grad (op : StandardPSFnoGrad m n) (x : NDA m n) :
    StandardPSFnoGrad m n :=
  { op with grad := some (ndzeros x) }

/-- PixelVariantPSF instance state. -/
structure PixelVariantPSF (m n : ℕ) where
  y : NDA m n
  psf_pcs : List (Img m n)
  psf_coef : List (NDA m n)
  data_format : String
  grad : Option (NDA m n)
  pm : PowerMethod m n

/-- Shape `np.array(psf_coef).shape[1:]`: the trailing shape of the
coefficient array (the component axis dropped). -/
def coefShapeTail : List (NDA m n) → List ℕ
  | [] => []
  | c :: _ => ndshape c

/-- PixelVariantPSF.MX: `pca_convolve` for `map` format, otherwise
`pca_convolve_stack`, both with `pcs_rot=False`. -/
def PixelVariantPSF.MX (op : PixelVariantPSF m n) (x : NDA m n) : Option (NDA m n) :=
  if op.data_format = "map" then pca_convolve x op.psf_pcs op.psf_coef false
  else pca_convolve_stack x op.psf_pcs op.psf_coef false

/-- PixelVariantPSF.MtX: the same dispatch with `pcs_rot=True`. -/
def PixelVariantPSF.MtX (op : PixelVariantPSF m n) (x : NDA m n) : Option (NDA m n) :=
  if op.data_format = "map" then pca_convolve x op.psf_pcs op.psf_coef true
  else pca_convolve_stack x op.psf_pcs op.psf_coef true

/-- MtMX inherited from GradBasic. -/
def PixelVariantPSF.MtMX (op : PixelVariantPSF m n) : NDA m n → Option (NDA m n) :=
  GradBasic.MtMX op.MX op.MtX

/-- get_grad inherited from GradBasic. -/
def PixelVariantPSF.get_grad (op : PixelVariantPSF m n) (x : NDA m n) :
    Option (PixelVariantPSF m n) :=
  (GradBasic.grad_val op.MX op.MtX op.y x).map fun g => { op with grad := some g }

/-- PixelVariantPSF.__init__: binds data, components and coefficients,
validates `data_format` (raising ValueError before any registration),
then registers the composed map with PowerMethod over
`self.psf_coef.shape[1:]` with `auto_run=False`. -/
def pixelVariantPSF_init (data : NDA m n) (psf_pcs : List (Img m n))
    (psf_coef : List (NDA m n)) (data_format : String) :
    Except String (PixelVariantPSF m n) :=
  if data_format = "map" ∨ data_format = "cube" then
    .ok { y := data, psf_pcs := psf_pcs, psf_coef := psf_coef,
          data_format := data_format, grad := none,
          pm := PowerMethod.init
            (GradBasic.MtMX
              (fun x =>
                if data_format = "map" then pca_convolve x psf_pcs psf_coef false
                else pca_convolve_stack x psf_pcs psf_coef false)
              (fun x =>
                if data_format = "map" then pca_convolve x psf_pcs psf_coef true
                else pca_convolve_stack x psf_pcs psf_coef true))
            (coefShapeTail psf_coef) false }
  else .error "Invalid data type. Options are \"map\" or \"cube\"."

/-- Python argparse action kinds used by the boolean toggles of
`get_opts`. -/
inductive ArgAction where
  | store_true
  | store_false

/-- Value argparse stores for a flag's `dest` when the flag is absent
and no explicit `default` is declared: `store_true` defaults to
`False`, `store_false` to `True` (Python stdlib semantics). -/
def ArgAction.defaultVal : ArgAction → Bool
  | .store_true => false
  | .store_false => true

/-- Value argparse stores when the flag is supplied. -/
def ArgAction.storedVal : ArgAction → Bool
  | .store_true => true
  | .store_false => false

/-- The boolean fields of the namespace `get_opts` returns. -/
structure DeconvOpts where
  no_pos : Bool
  no_grad : Bool
  liveplot : Bool

/-- The three boolean `add_argument` declarations of `get_opts`
(`deconvolution_args.py` lines 117–127) applied to an argument vector:
`--no_pos` and `--no_grad` are `store_false` actions, `--live_plot`
(dest `liveplot`) is `store_true`. -/
def get_opts_bools (argv : List String) : DeconvOpts :=
  { no_pos := if "--no_pos" ∈ argv then ArgAction.store_false.storedVal
      else ArgAction.store_false.defaultVal,
    no_grad := if "--no_grad" ∈ argv then ArgAction.store_false.storedVal
      else ArgAction.store_false.defaultVal,
    liveplot := if "--live_plot" ∈ argv then ArgAction.store_true.storedVal
      else ArgAction.store_true.defaultVal }

/-! Concrete instances used by the witness theorems. -/

/-- Concrete 1×1 kernel. -/
def k0 : Img 1 1 := fun _ => (2 : ℚ)

/-- Concrete PCA component. -/
def p0 : Img 1 1 := fun _ => (3 : ℚ)

/-- Concrete PCA coefficient map. -/
def c0 : Img 1 1 := fun _ => (7 : ℚ)

/-- Concrete input image. -/
def x0i : Img 1 1 := fun _ => (3 : ℚ)

/-- Concrete observation image. -/
def y0i : Img 1 1 := fun _ => (5 : ℚ)

/-- Concrete input array. -/
def x0 : NDA 1 1 := .two x0i

/-- Concrete observation array. -/
def y0 : NDA 1 1 := .two y0i

/-- Concrete observed data. -/
def d0 : NDA 1 1 := .two y0i

/-- Concrete PSF argument. -/
def psf0 : NDA 1 1 := .two k0

/-- The StandardPSF instance `standardPSF_init d0 psf0 "fixed" "map"`
produces. -/
def opStd0 : StandardPSF 1 1 :=
  { y := d0, psf := psf0, psf_type := "fixed", data_format := "map", grad := none,
    pm := PowerMethod.init
      (GradBasic.MtMX (fun x => psf_convolve x psf0 false "fixed" "map")
        (fun x => psf_convolve x psf0 true "fixed" "map"))
      (ndshape d0) false }

/-- The PixelVariantPSF instance
`pixelVariantPSF_init d0 [p0] [NDA.two c0] "map"` produces. -/
def opPix0 : PixelVariantPSF 1 1 :=
  { y := d0, psf_pcs := [p0], psf_coef := [NDA.two c0], data_format := "map",
    grad := none,
    pm := PowerMethod.init
      (GradBasic.MtMX (fun x => pca_convolve x [p0] [NDA.two c0] false)
        (fun x => pca_convolve x [p0] [NDA.two c0] true))
      (coefShapeTail [NDA.two c0]) false }

/-- A cube-format PixelVariantPSF instance. -/
def opPixC0 : PixelVariantPSF 1 1 :=
  { y := .three [y0i], psf_pcs := [p0], psf_coef := [NDA.three [c0]],
    data_format := "cube", grad := none,
    pm := PowerMethod.init
      (GradBasic.MtMX (fun x => pca_convolve_stack x [p0] [NDA.three [c0]] false)
        (fun x => pca_convolve_stack x [p0] [NDA.three [c0]] true))
      (coefShapeTail [NDA.three [c0]]) false }

/-! Helper lemmas. -/

theorem iprod_comm (a b : Img m n) : iprod a b = iprod b a := by
  unfold iprod
  exact Finset.sum_congr rfl fun i _ => mul_comm _ _

theorem iprod_add_left (a b y : Img m n) :
    iprod (a + b) y = iprod a y + iprod b y := by
  unfold iprod
  rw [← Finset.sum_add_distrib]
  exact Finset.sum_congr rfl fun i _ => by
    simp [Pi.add_apply, add_mul]

theorem iprod_zero_left (y : Img m n) : iprod 0 y = 0 := by
  unfold iprod
  simp

theorem iprod_zero_right (y : Img m n) : iprod y 0 = 0 := by
  rw [iprod_comm, iprod_zero_left]

theorem iprod_add_right (y a b : Img m n) :
    iprod y (a + b) = iprod y a + iprod y b := by
  rw [iprod_comm, iprod_add_left, iprod_comm a y, iprod_comm b y]

/-- Pointwise multiplication by a coefficient map is self-adjoint. -/
theorem iprod_pointwise (c x y : Img m n) : iprod (c * x) y = iprod x (c * y) := by
  unfold iprod
  exact Finset.sum_congr rfl fun i _ => by
    simp [Pi.mul_apply]
    ring

/-- Core adjoint identity for convolution: convolving with the rotated
kernel is the adjoint of convolving with the kernel. -/
theorem iprod_convolve (x k y : Img m n) :
    iprod (convolve x k) y = iprod x (convolve y (rotate k)) := by
  have L : iprod (convolve x k) y
      = ∑ j : Pix m n, ∑ t : Pix m n, k j * x t * y (t + j) := by
    unfold iprod convolve
    simp only [Finset.sum_mul]
    rw [Finset.sum_comm]
    refine Finset.sum_congr rfl fun j _ => ?_
    refine Fintype.sum_equiv (Equiv.subRight j) _ _ fun i => ?_
    simp [Equiv.subRight, sub_add_cancel_right, mul_assoc]
  have R : iprod x (convolve y (rotate k))
      = ∑ j : Pix m n, ∑ t : Pix m n, x t * (k j * y (t + j)) := by
    unfold iprod convolve rotate
    simp only [Finset.mul_sum]
    rw [Finset.sum_comm]
    refine Fintype.sum_equiv (Equiv.neg (Pix m n)) _ _ fun j => ?_
    refine Finset.sum_congr rfl fun t _ => ?_
    simp [sub_eq_add_neg]
  rw [L, R]
  exact Finset.sum_congr rfl fun j _ => Finset.sum_congr rfl fun t _ => by ring

/-- Plane-stack adjoint identity for a single broadcast kernel. -/
theorem zip_iprod_fixed (k : Img m n) :
    ∀ (xs ys : List (Img m n)),
      (List.zipWith iprod (xs.map fun xi => convolve xi k) ys).sum
        = (List.zipWith iprod xs (ys.map fun yi => convolve yi (rotate k))).sum := by
  intro xs
  induction xs with
  | nil => intro ys; simp
  | cons x xs ih =>
    intro ys
    cases ys with
    | nil => simp
    | cons y ys => simp [List.zipWith, ih ys, iprod_convolve x k y]

/-- Plane-stack adjoint identity for per-plane (object-variant) kernels. -/
theorem zip_iprod_objvar :
    ∀ (ks xs ys : List (Img m n)),
      (List.zipWith iprod (List.zipWith (fun xi k => convolve xi k) xs ks) ys).sum
        = (List.zipWith iprod xs (List.zipWith (fun yi k => convolve yi (rotate k)) ys ks)).sum := by
  intro ks
  induction ks with
  | nil => intro xs ys; cases xs <;> cases ys <;> simp
  | cons k ks ih =>
    intro xs ys
    cases xs with
    | nil => simp
    | cons x xs =>
      cases ys with
      | nil => simp
      | cons y ys => simp [List.zipWith, ih xs ys, iprod_convolve x k y]

theorem iprod_listSum_left (l : List (Img m n)) (y : Img m n) :
    iprod l.sum y = (l.map fun a => iprod a y).sum := by
  induction l with
  | nil => simp [iprod_zero_left]
  | cons a l ih => simp [List.sum_cons, iprod_add_left, ih]

/-- Single-plane PCA adjoint identity. -/
theorem iprod_pca2 (x y : Img m n) :
    ∀ (pcs cs : List (Img m n)),
      iprod (pca2 x pcs cs false) y = iprod x (pca2 y pcs cs true) := by
  intro pcs
  induction pcs with
  | nil => intro cs; simp [pca2, iprod_zero_left, iprod_zero_right]
  | cons pc pcs ih =>
    intro cs
    cases cs with
    | nil => simp [pca2, iprod_zero_left, iprod_zero_right]
    | cons c cs =>
      have h1 : pca2 x (pc :: pcs) (c :: cs) false
          = convolve (c * x) pc + pca2 x pcs cs false := by
        simp [pca2, List.zipWith, List.sum_cons]
      have h2 : pca2 y (pc :: pcs) (c :: cs) true
          = c * convolve y (rotate pc) + pca2 y pcs cs true := by
        simp [pca2, List.zipWith, List.sum_cons]
      rw [h1, h2, iprod_add_left, iprod_add_right,
        iprod_convolve (c * x) pc y, iprod_pointwise c x (convolve y (rotate pc)),
        ih cs]

/-- Cube-level PCA adjoint identity: plane by plane, each plane using
its own coefficient column. -/
theorem zip_iprod_pcaStack (pcs : List (Img m n)) (ckss : List (List (Img m n))) :
    ∀ (xs ys : List (Img m n)) (j : ℕ),
      (List.zipWith iprod (pcaStackPlanes pcs ckss false xs j) ys).sum
        = (List.zipWith iprod xs (pcaStackPlanes pcs ckss true ys j)).sum := by
  intro xs
  induction xs with
  | nil => intro ys j; cases ys <;> simp [pcaStackPlanes]
  | cons x xs ih =>
    intro ys j
    cases ys with
    | nil => simp [pcaStackPlanes]
    | cons y ys =>
      simp only [pcaStackPlanes, List.zipWith, List.sum_cons]
      rw [iprod_pca2 x y pcs (colAt j ckss), ih ys (j + 1)]

omit [NeZero m] [NeZero n] in
theorem ndshape_ndzeros (x : NDA m n) : ndshape (ndzeros x) = ndshape x := by
  cases x <;> simp [ndzeros, ndshape]

omit [NeZero m] [NeZero n] in
theorem ndAllZero_ndzeros (x : NDA m n) : ndAllZero (ndzeros x) := by
  cases x with
  | two a => exact rfl
  | three xs =>
    intro p hp
    obtain ⟨a, _, h⟩ := List.mem_map.1 hp
    exact h.symm

/-! Claim theorems. -/

/-- C1: adjoint identity — for every operator variant (StandardPSF with
`psf_type` `fixed` or `obj_var`, PixelVariantPSF) and both data formats
(`map`, `cube`), whenever the forward and adjoint applications are
defined (compatible shapes), `⟨MX(x), y⟩ = ⟨x, MtX(y)⟩` exactly (the
rational idealisation of the floating-tolerance statement). -/
theorem C1_adjoint_identity {m n : ℕ} [NeZero m] [NeZero n] :
    (∀ (op : StandardPSF m n) (x y fx ay : NDA m n),
      op.MX x = some fx → op.MtX y = some ay → iprodN fx y = iprodN x ay)
    ∧ (∀ (op : PixelVariantPSF m n) (x y fx ay : NDA m n),
      op.MX x = some fx → op.MtX y = some ay → iprodN fx y = iprodN x ay) := by
  constructor
  · intro op x y fx ay hMX hMtX
    unfold StandardPSF.MX at hMX
    unfold StandardPSF.MtX at hMtX
    unfold psf_convolve at hMX hMtX
    by_cases ht : op.psf_type = "fixed"
    · cases hpsf : op.psf with
      | three ks =>
        rw [hpsf] at hMX
        simp [ht, asMap] at hMX
      | two k =>
        rw [hpsf] at hMX hMtX
        by_cases hd : op.data_format = "map"
        · cases x with
          | three xs => simp [ht, hd, asMap] at hMX
          | two xi =>
            cases y with
            | three ys => simp [ht, hd, asMap] at hMtX
            | two yi =>
              simp [ht, hd, asMap] at hMX hMtX
              subst hMX hMtX
              simp [iprodN, krot]
              exact iprod_convolve xi k yi
        · by_cases hc : op.data_format = "cube"
          · cases x with
            | two xi => simp [ht, hd, hc, asMap, asCube] at hMX
            | three xs =>
              cases y with
              | two yi => simp [ht, hd, hc, asMap, asCube] at hMtX
              | three ys =>
                simp [ht, hd, hc, asMap, asCube] at hMX hMtX
                subst hMX hMtX
                simp [iprodN, krot]
                exact zip_iprod_fixed k xs ys
          · simp [ht, hd, hc, asMap] at hMX
    · by_cases ho : op.psf_type = "obj_var"
      · cases hpsf : op.psf with
        | two k =>
          rw [hpsf] at hMX
          simp [ht, ho, asCube] at hMX
        | three ks =>
          rw [hpsf] at hMX hMtX
          by_cases hc : op.data_format = "cube"
          · cases x with
            | two xi => simp [ht, ho, hc, asCube] at hMX
            | three xs =>
              cases y with
              | two yi => simp [ht, ho, hc, asCube] at hMtX
              | three ys =>
                simp [ht, ho, hc, asCube] at hMX hMtX
                obtain ⟨hlx, hMX⟩ := hMX
                obtain ⟨hly, hMtX⟩ := hMtX
                subst hMX hMtX
                simp [iprodN, krot]
                exact zip_iprod_objvar ks xs ys
          · simp [ht, ho, hc, asCube] at hMX
      · simp [ht, ho] at hMX
  · intro op x y fx ay hMX hMtX
    unfold PixelVariantPSF.MX at hMX
    unfold PixelVariantPSF.MtX at hMtX
    by_cases hd : op.data_format = "map"
    · rw [if_pos hd] at hMX hMtX
      unfold pca_convolve at hMX hMtX
      cases x with
      | three xs => simp [asMap] at hMX
      | two xi =>
        cases y with
        | three ys => simp [asMap] at hMtX
        | two yi =>
          simp [asMap] at hMX hMtX
          obtain ⟨cs, hcs, hMX⟩ := hMX
          obtain ⟨cs2, hcs2, hMtX⟩ := hMtX
          rw [hcs] at hcs2
          injection hcs2 with hcs2
          subst hcs2
          subst hMX hMtX
          simp [iprodN]
          exact iprod_pca2 xi yi op.psf_pcs cs
    · rw [if_neg hd] at hMX hMtX
      unfold pca_convolve_stack at hMX hMtX
      cases x with
      | two xi => simp [asCube] at hMX
      | three xs =>
        cases y with
        | two yi => simp [asCube] at hMtX
        | three ys =>
          simp [asCube, Option.bind_eq_some, Option.ite_none_right_eq_some] at hMX hMtX
          obtain ⟨ckss, hck, hlx, hMX⟩ := hMX
          obtain ⟨ckss2, hck2, hly, hMtX⟩ := hMtX
          rw [hck] at hck2
          injection hck2 with hck2
          subst hck2
          subst hMX hMtX
          simp [iprodN]
          exact zip_iprod_pcaStack op.psf_pcs ckss xs ys 0

/-- Witness for C1 at concrete 1×1 inputs for both variants. -/
theorem C1_adjoint_identity_witness :
    opStd0.MX x0 = some (NDA.two (convolve x0i k0))
    ∧ opStd0.MtX y0 = some (NDA.two (convolve y0i (rotate k0)))
    ∧ iprodN (NDA.two (convolve x0i k0)) y0 = iprodN x0 (NDA.two (convolve y0i (rotate k0)))
    ∧ opPix0.MX x0 = some (NDA.two (pca2 x0i [p0] [c0] false))
    ∧ opPix0.MtX y0 = some (NDA.two (pca2 y0i [p0] [c0] true))
    ∧ iprodN (NDA.two (pca2 x0i [p0] [c0] false)) y0
        = iprodN x0 (NDA.two (pca2 y0i [p0] [c0] true)) :=
  ⟨rfl, rfl, C1_adjoint_identity.1 opStd0 x0 y0 _ _ rfl rfl,
   rfl, rfl, C1_adjoint_identity.2 opPix0 x0 y0 _ _ rfl rfl⟩

/-- C2: for both data-fidelity operator variants (StandardPSF,
PixelVariantPSF), `get_grad(x)` computes and stores in `grad` exactly
`MtX(MX(x) - y)` — the adjoint of the residual, elementwise identical
to composing the two primitives — and updates only the `grad` field of
the operator state (no other state and no mutation of `x`). -/
theorem C2_gradient_formula {m n : ℕ} [NeZero m] [NeZero n] :
    (∀ (op : StandardPSF m n) (x fx d g : NDA m n),
      op.MX x = some fx → ndsub fx op.y = some d → op.MtX d = some g →
        op.get_grad x = some { op with grad := some g })
    ∧ (∀ (op : PixelVariantPSF m n) (x fx d g : NDA m n),
      op.MX x = some fx → ndsub fx op.y = some d → op.MtX d = some g →
        op.get_grad x = some { op with grad := some g }) := by
  constructor <;> intro op x fx d g h1 h2 h3 <;>
    simp [StandardPSF.get_grad, PixelVariantPSF.get_grad, GradBasic.grad_val, h1, h2, h3]

/-- Witness for C2 at concrete 1×1 inputs. -/
theorem C2_gradient_formula_witness :
    opStd0.MX x0 = some (NDA.two (convolve x0i k0))
    ∧ ndsub (NDA.two (convolve x0i k0)) opStd0.y = some (NDA.two (convolve x0i k0 - y0i))
    ∧ opStd0.MtX (NDA.two (convolve x0i k0 - y0i))
        = some (NDA.two (convolve (convolve x0i k0 - y0i) (rotate k0)))
    ∧ opStd0.get_grad x0
        = some { opStd0 with
                   grad := some (NDA.two (convolve (convolve x0i k0 - y0i) (rotate k0))) }
    ∧ opPix0.MX x0 = some (NDA.two (pca2 x0i [p0] [c0] false))
    ∧ ndsub (NDA.two (pca2 x0i [p0] [c0] false)) opPix0.y
        = some (NDA.two (pca2 x0i [p0] [c0] false - y0i))
    ∧ opPix0.MtX (NDA.two (pca2 x0i [p0] [c0] false - y0i))
        = some (NDA.two (pca2 (pca2 x0i [p0] [c0] false - y0i) [p0] [c0] true))
    ∧ opPix0.get_grad x0
        = some { opPix0 with
                   grad := some (NDA.two (pca2 (pca2 x0i [p0] [c0] false - y0i) [p0] [c0] true)) } :=
  ⟨rfl, rfl, rfl, C2_gradient_formula.1 opStd0 x0 _ _ _ rfl rfl rfl,
   rfl, rfl, rfl, C2_gradient_formula.2 opPix0 x0 _ _ _ rfl rfl rfl⟩

/-- C3: for every operator variant the composed map `MtMX` returns
exactly `MtX(MX(x))`, the adjoint applied to the forward result, with
no specialized shortcut. -/
theorem C3_composition_consistency {m n : ℕ} [NeZero m] [NeZero n] :
    (∀ (op : StandardPSF m n) (x fx : NDA m n),
      op.MX x = some fx → op.MtMX x = op.MtX fx)
    ∧ (∀ (op : PixelVariantPSF m n) (x fx : NDA m n),
      op.MX x = some fx → op.MtMX x = op.MtX fx)
    ∧ (∀ (op : StandardPSFnoGrad m n) (x fx : NDA m n),
      StandardPSFnoGrad.MX op x = some fx →
        StandardPSFnoGrad.MtMX op x = StandardPSFnoGrad.MtX op fx) := by
  refine ⟨?_, ?_, ?_⟩ <;> intro op x fx h <;>
    simp [StandardPSF.MtMX, PixelVariantPSF.MtMX, StandardPSFnoGrad.MtMX,
      GradBasic.MtMX, h]

/-- Witness for C3 at concrete 1×1 inputs. -/
theorem C3_composition_consistency_witness :
    (opStd0.MX x0 = some (NDA.two (convolve x0i k0))
      ∧ opStd0.MtMX x0 = opStd0.MtX (NDA.two (convolve x0i k0)))
    ∧ (opPix0.MX x0 = some (NDA.two (pca2 x0i [p0] [c0] false))
      ∧ opPix0.MtMX x0 = opPix0.MtX (NDA.two (pca2 x0i [p0] [c0] false)))
    ∧ (StandardPSFnoGrad.MX opStd0 x0 = some (NDA.two (convolve x0i k0))
      ∧ StandardPSFnoGrad.MtMX opStd0 x0
          = StandardPSFnoGrad.MtX opStd0 (NDA.two (convolve x0i k0))) :=
  ⟨⟨rfl, C3_composition_consistency.1 opStd0 x0 _ rfl⟩,
   ⟨rfl, C3_composition_consistency.2.1 opPix0 x0 _ rfl⟩,
   ⟨rfl, C3_composition_consistency.2.2 opStd0 x0 _ rfl⟩⟩

/-- C4: for the Zero-Gradient variant, `get_grad(x)` sets the `grad`
attribute to an all-zero array with exactly `x`'s shape, for any input
`x`, any bound data and any forward/adjoint maps, and changes nothing
else of the state. -/
theorem C4_zero_gradient_invariant {m n : ℕ} (op : GradZeroOp m n) (x : NDA m n) :
    (op.get_grad x).grad = some (ndzeros x)
    ∧ ndshape (ndzeros x) = ndshape x
    ∧ ndAllZero (ndzeros x)
    ∧ (op.get_grad x).y = op.y
    ∧ (op.get_grad x).MX = op.MX
    ∧ (op.get_grad x).MtX = op.MtX :=
  ⟨rfl, ndshape_ndzeros x, ndAllZero_ndzeros x, rfl, rfl, rfl⟩

/-- C6: every validly constructed StandardPSF delegates `MX` to the
un-rotated forward convolution and `MtX` to the rotated/adjoint
convolution, bit-for-bit identical to calling `psf_convolve` directly
with the operator's bound kernel and tags. -/
theorem C6_standard_delegation {m n : ℕ} [NeZero m] [NeZero n]
    (data psf : NDA m n) (t f : String) (op : StandardPSF m n)
    (_h : standardPSF_init data psf t f = .ok op) (x : NDA m n) :
    op.MX x = psf_convolve x op.psf false op.psf_type op.data_format
    ∧ op.MtX x = psf_convolve x op.psf true op.psf_type op.data_format :=
  ⟨rfl, rfl⟩

/-- Witness for C6 at a concrete valid construction. -/
theorem C6_standard_delegation_witness :
    standardPSF_init d0 psf0 "fixed" "map" = .ok opStd0
    ∧ (opStd0.MX x0 = psf_convolve x0 opStd0.psf false opStd0.psf_type opStd0.data_format
      ∧ opStd0.MtX x0 = psf_convolve x0 opStd0.psf true opStd0.psf_type opStd0.data_format) :=
  ⟨rfl, C6_standard_delegation d0 psf0 "fixed" "map" opStd0 rfl x0⟩

/-- C7: PixelVariantPSF dispatches on the data format: `map` uses
`pca_convolve`, `cube` uses `pca_convolve_stack`, with `pcs_rot=False`
for `MX` and `pcs_rot=True` threaded through only for `MtX`. -/
theorem C7_pixel_dispatch {m n : ℕ} [NeZero m] [NeZero n] (op : PixelVariantPSF m n) :
    (op.data_format = "map" →
      ∀ x, op.MX x = pca_convolve x op.psf_pcs op.psf_coef false
         ∧ op.MtX x = pca_convolve x op.psf_pcs op.psf_coef true)
    ∧ (op.data_format = "cube" →
      ∀ x, op.MX x = pca_convolve_stack x op.psf_pcs op.psf_coef false
         ∧ op.MtX x = pca_convolve_stack x op.psf_pcs op.psf_coef true) := by
  constructor <;> intro h x <;>
    refine ⟨?_, ?_⟩ <;>
      simp [PixelVariantPSF.MX, PixelVariantPSF.MtX, h]

/-- Witness for C7: one map-format and one cube-format instance. -/
theorem C7_pixel_dispatch_witness :
    (opPix0.MX x0 = pca_convolve x0 opPix0.psf_pcs opPix0.psf_coef false
      ∧ opPix0.MtX x0 = pca_convolve x0 opPix0.psf_pcs opPix0.psf_coef true)
    ∧ (opPixC0.MX (NDA.three [x0i])
        = pca_convolve_stack (NDA.three [x0i]) opPixC0.psf_pcs opPixC0.psf_coef false
      ∧ opPixC0.MtX (NDA.three [x0i])
        = pca_convolve_stack (NDA.three [x0i]) opPixC0.psf_pcs opPixC0.psf_coef true) :=
  ⟨(C7_pixel_dispatch opPix0).1 rfl x0,
   (C7_pixel_dispatch opPixC0).2 rfl (NDA.three [x0i])⟩

/-- C5: constructing StandardPSF with a `psf_type` outside
`{fixed, obj_var}` or a `data_format` outside `{map, cube}` fails with
the invalid-configuration ValueError, as does PixelVariantPSF with a
bad `data_format`; in every such case the constructor fails before the
power-iteration registration, so no constructed operator exists. -/
theorem C5_construction_validation {m n : ℕ} [NeZero m] [NeZero n] :
    (∀ (data psf : NDA m n) (t f : String), t ≠ "fixed" → t ≠ "obj_var" →
      standardPSF_init data psf t f
          = .error "Invalid PSF type. Options are fixed or obj_var"
      ∧ ∀ op, standardPSF_init data psf t f ≠ .ok op)
    ∧ (∀ (data psf : NDA m n) (t f : String), (t = "fixed" ∨ t = "obj_var") →
      f ≠ "map" → f ≠ "cube" →
      standardPSF_init data psf t f
          = .error "Invalid data type. Options are map or cube."
      ∧ ∀ op, standardPSF_init data psf t f ≠ .ok op)
    ∧ (∀ (data : NDA m n) (pcs : List (Img m n)) (coef : List (NDA m n)) (f : String),
      f ≠ "map" → f ≠ "cube" →
      pixelVariantPSF_init data pcs coef f
          = .error "Invalid data type. Options are \"map\" or \"cube\"."
      ∧ ∀ op, pixelVariantPSF_init data pcs coef f ≠ .ok op) := by
  refine ⟨fun data psf t f h1 h2 => ?_, fun data psf t f ht h1 h2 => ?_,
    fun data pcs coef f h1 h2 => ?_⟩
  · constructor
    · simp [standardPSF_init, h1, h2]
    · intro op hok
      simp [standardPSF_init, h1, h2] at hok
  · constructor
    · simp [standardPSF_init, ht, h1, h2]
    · intro op hok
      simp [standardPSF_init, ht, h1, h2] at hok
  · constructor
    · simp [pixelVariantPSF_init, h1, h2]
    · intro op hok
      simp [pixelVariantPSF_init, h1, h2] at hok

/-- Witness for C5 at concrete bogus tags. -/
theorem C5_construction_validation_witness :
    (standardPSF_init d0 psf0 "bogus" "map"
        = .error "Invalid PSF type. Options are fixed or obj_var")
    ∧ (standardPSF_init d0 psf0 "fixed" "bogus"
        = .error "Invalid data type. Options are map or cube.")
    ∧ (pixelVariantPSF_init d0 [p0] [NDA.two c0] "bogus"
        = .error "Invalid data type. Options are \"map\" or \"cube\".")
    ∧ standardPSF_init d0 psf0 "bogus" "map" ≠ .ok opStd0 :=
  ⟨(C5_construction_validation.1 d0 psf0 "bogus" "map" (by decide) (by decide)).1,
   (C5_construction_validation.2.1 d0 psf0 "fixed" "bogus" (Or.inl rfl)
     (by decide) (by decide)).1,
   (C5_construction_validation.2.2 d0 [p0] [NDA.two c0] "bogus"
     (by decide) (by decide)).1,
   (C5_construction_validation.1 d0 psf0 "bogus" "map" (by decide) (by decide)).2 opStd0⟩

/-- C8: every successful construction registers the composed map `MtMX`
with the power-iteration collaborator with `auto_run=False`, so no
norm is computed at construction; StandardPSF registers over the
observed data's shape, PixelVariantPSF over the coefficient array's
trailing shape `psf_coef.shape[1:]`. -/
theorem C8_lazy_power_registration {m n : ℕ} [NeZero m] [NeZero n] :
    (∀ (data psf : NDA m n) (t f : String) (op : StandardPSF m n),
      standardPSF_init data psf t f = .ok op →
        op.pm.auto_run = false ∧ op.pm.norm = none
        ∧ op.pm.data_shape = ndshape data ∧ op.pm.operator = op.MtMX)
    ∧ (∀ (data : NDA m n) (pcs : List (Img m n)) (coef : List (NDA m n)) (f : String)
        (op : PixelVariantPSF m n),
      pixelVariantPSF_init data pcs coef f = .ok op →
        op.pm.auto_run = false ∧ op.pm.norm = none
        ∧ op.pm.data_shape = coefShapeTail coef ∧ op.pm.operator = op.MtMX) := by
  constructor
  · intro data psf t f op h
    unfold standardPSF_init at h
    split at h
    · split at h
      · injection h with h
        subst h
        exact ⟨rfl, rfl, rfl, rfl⟩
      · simp at h
    · simp at h
  · intro data pcs coef f op h
    unfold pixelVariantPSF_init at h
    split at h
    · injection h with h
      subst h
      exact ⟨rfl, rfl, rfl, rfl⟩
    · simp at h

/-- Witness for C8: concrete constructions of both variants; the
pixel-variant registration shape is the coefficient trailing shape and
differs from the bound data's shape in the cube example. -/
theorem C8_lazy_power_registration_witness :
    (standardPSF_init d0 psf0 "fixed" "map" = .ok opStd0
      ∧ opStd0.pm.auto_run = false ∧ opStd0.pm.norm = none
      ∧ opStd0.pm.data_shape = ndshape d0 ∧ opStd0.pm.operator = opStd0.MtMX)
    ∧ (pixelVariantPSF_init d0 [p0] [NDA.two c0] "map" = .ok opPix0
      ∧ opPix0.pm.auto_run = false ∧ opPix0.pm.norm = none
      ∧ opPix0.pm.data_shape = coefShapeTail [NDA.two c0]
      ∧ opPix0.pm.operator = opPix0.MtMX) :=
  ⟨⟨rfl, C8_lazy_power_registration.1 d0 psf0 "fixed" "map" opStd0 rfl⟩,
   ⟨rfl, C8_lazy_power_registration.2 d0 [p0] [NDA.two c0] "map" opPix0 rfl⟩⟩

/-- C9: StandardPSFnoGrad built by the inherited StandardPSF
constructor has `MX`/`MtX` identical to StandardPSF's on the same
state, while its `get_grad` (resolved to GradZero's under the MRO)
stores an all-zero array shaped like `x`. -/
theorem C9_nograd_combination {m n : ℕ} [NeZero m] [NeZero n]
    (data psf : NDA m n) (t f : String) (op : StandardPSFnoGrad m n)
    (_h : standardPSF_init data psf t f = .ok op) :
    (∀ x, StandardPSFnoGrad.MX op x = StandardPSF.MX op x)
    ∧ (∀ x, StandardPSFnoGrad.MtX op x = StandardPSF.MtX op x)
    ∧ (∀ x, (StandardPSFnoGrad.get_grad op x).grad = some (ndzeros x)
        ∧ ndshape (ndzeros x) = ndshape x ∧ ndAllZero (ndzeros x)) :=
  ⟨fun _ => rfl, fun _ => rfl,
   fun x => ⟨rfl, ndshape_ndzeros x, ndAllZero_ndzeros x⟩⟩

/-- Witness for C9 at a concrete valid construction. -/
theorem C9_nograd_combination_witness :
    standardPSF_init d0 psf0 "fixed" "map" = .ok opStd0
    ∧ StandardPSFnoGrad.MX opStd0 x0 = StandardPSF.MX opStd0 x0
    ∧ StandardPSFnoGrad.MtX opStd0 x0 = StandardPSF.MtX opStd0 x0
    ∧ (StandardPSFnoGrad.get_grad opStd0 x0).grad = some (ndzeros x0)
    ∧ ndshape (ndzeros x0) = ndshape x0 ∧ ndAllZero (ndzeros x0) :=
  ⟨rfl,
   (C9_nograd_combination d0 psf0 "fixed" "map" opStd0 rfl).1 x0,
   (C9_nograd_combination d0 psf0 "fixed" "map" opStd0 rfl).2.1 x0,
   ((C9_nograd_combination d0 psf0 "fixed" "map" opStd0 rfl).2.2 x0).1,
   ((C9_nograd_combination d0 psf0 "fixed" "map" opStd0 rfl).2.2 x0).2.1,
   ((C9_nograd_combination d0 psf0 "fixed" "map" opStd0 rfl).2.2 x0).2.2⟩

/-- C10: in `get_opts`, the positivity and gradient toggles are enabled
by default — omitting `--no_pos` (resp. `--no_grad`) parses `no_pos`
(resp. `no_grad`) as True, supplying the flag stores False
(`store_false` actions) — and conversely `--live_plot` defaults to
False and stores True when supplied. -/
theorem C10_toggle_polarity (argv : List String) :
    ("--no_pos" ∉ argv → (get_opts_bools argv).no_pos = true)
    ∧ ("--no_pos" ∈ argv → (get_opts_bools argv).no_pos = false)
    ∧ ("--no_grad" ∉ argv → (get_opts_bools argv).no_grad = true)
    ∧ ("--no_grad" ∈ argv → (get_opts_bools argv).no_grad = false)
    ∧ ("--live_plot" ∉ argv → (get_opts_bools argv).liveplot = false)
    ∧ ("--live_plot" ∈ argv → (get_opts_bools argv).liveplot = true) := by
  refine ⟨?_, ?_, ?_, ?_, ?_, ?_⟩ <;> intro h <;>
    simp [get_opts_bools, h, ArgAction.storedVal, ArgAction.defaultVal]

/-- Witness for C10: the empty command line and one supplying all three
flags. -/
theorem C10_toggle_polarity_witness :
    ((get_opts_bools []).no_pos = true ∧ (get_opts_bools []).no_grad = true
      ∧ (get_opts_bools []).liveplot = false)
    ∧ ((get_opts_bools ["--no_pos", "--no_grad", "--live_plot"]).no_pos = false
      ∧ (get_opts_bools ["--no_pos", "--no_grad", "--live_plot"]).no_grad = false
      ∧ (get_opts_bools ["--no_pos", "--no_grad", "--live_plot"]).liveplot = true) :=
  ⟨⟨(C10_toggle_polarity []).1 (by decide),
    (C10_toggle_polarity []).2.2.1 (by decide),
    (C10_toggle_polarity []).2.2.2.2.1 (by decide)⟩,
   ⟨(C10_toggle_polarity ["--no_pos", "--no_grad", "--live_plot"]).2.1 (by decide),
    (C10_toggle_polarity ["--no_pos", "--no_grad", "--live_plot"]).2.2.2.1 (by decide),
    (C10_toggle_polarity ["--no_pos", "--no_grad", "--live_plot"]).2.2.2.2.2 (by decide)⟩⟩

end SFD
